import Mathlib

/-!
# Verification of the `sem_ver` MCP tool engine

Shallow embedding of `src/mcp/sem_ver/sem_ver.py`: the SemVer parsing,
comparison, bumping and formatting engine.

Strings are modelled as Lean `String` (Python `str` and Lean `String` are both
sequences of Unicode scalar values); the character-level work is done on
`List Char`.

A central point of the embedding is the compiled regular expression.  The
source builds `_SEMVER_PATTERN` from *raw* string literals containing doubled
backslashes, so the pattern handed to `re.compile` is

  `^(0|[1-9]\\d*)\\.(0|[1-9]\\d*)\\.(0|[1-9]\\d*)`
  `(?:-([0-9A-Za-z-]+(?:\\.[0-9A-Za-z-]+)*))?`
  `(?:\\+([0-9A-Za-z-]+(?:\\.[0-9A-Za-z-]+)*))?$`

in which `\\d` is an *escaped backslash followed by the literal letter `d`*,
`\\.` is an escaped backslash followed by the any-character metacharacter
(which excludes `'\n'`), and `\\+` is one-or-more escaped backslashes.  The
matcher below (`semverReMatch`) implements exactly this compiled pattern,
including `re.match` anchoring and the `$` convention of also accepting a
single trailing newline.  Backtracking is resolved statically: every greedy
choice in this pattern is forced (each repeated atom's character set is
disjoint from the character that must follow it, and whenever a repetition of
`\\.[0-9A-Za-z-]+` succeeds locally, the continuation language from the
resulting position contains the continuation language of the exit
alternative), so the deterministic recursive matcher below computes the same
match and the same captured groups as the backtracking engine.
-/

/-- Characters of the identifier class `[0-9A-Za-z-]` of the pattern. -/
def isIdentChar (c : Char) : Bool :=
  ('0' ≤ c && c ≤ '9') || ('A' ≤ c && c ≤ 'Z') || ('a' ≤ c && c ≤ 'z') || c = '-'

/-- ASCII decimal digit `0`-`9`. -/
def isAsciiDigitChar (c : Char) : Bool :=
  '0' ≤ c && c ≤ '9'

/-- The numeric group `(0|[1-9]\\d*)` of the compiled pattern: the literal
`"0"`, or a nonzero digit followed by a literal backslash and a greedy run of
the letter `d`.  (The alternatives are disjoint on the first character, and
the run of `d` cannot overlap the character required next, so the greedy
choice is forced.)  Returns the captured text and the rest of the input. -/
def matchNumGroup : List Char → Option (List Char × List Char)
  | '0' :: rest => some (['0'], rest)
  | c :: '\\' :: rest =>
      if '1' ≤ c && c ≤ '9' then
        some (c :: '\\' :: rest.takeWhile (· = 'd'), rest.dropWhile (· = 'd'))
      else none
  | _ => none

/-- The separator `\\.` of the compiled pattern: a literal backslash followed
by any single character other than `'\n'`.  Returns that character and the
rest. -/
def matchSep : List Char → Option (Char × List Char)
  | '\\' :: c :: rest => if c = '\n' then none else some (c, rest)
  | _ => none

/-- A greedy, nonempty run of identifier-class characters (`[0-9A-Za-z-]+`). -/
def matchIdentRun (s : List Char) : Option (List Char × List Char) :=
  match s.takeWhile isIdentChar with
  | [] => none
  | c :: cs => some (c :: cs, s.dropWhile isIdentChar)

/-- The loop `(?:\\.[0-9A-Za-z-]+)*`: repeatedly consume a `\\.` separator and
an identifier run, returning the concatenation of the matched text (with the
literal backslashes and the arbitrary separator characters included, exactly
as the capture group of the pattern records them).  Fuel-based recursion; each
iteration consumes at least three characters. -/
def identSeqLoop : Nat → List Char → List Char × List Char
  | 0, s => ([], s)
  | fuel + 1, s =>
    match matchSep s with
    | none => ([], s)
    | some (c, rest) =>
      match matchIdentRun rest with
      | none => ([], s)
      | some (run, rest2) =>
        let t := identSeqLoop fuel rest2
        ('\\' :: c :: (run ++ t.1), t.2)

/-- The group body `[0-9A-Za-z-]+(?:\\.[0-9A-Za-z-]+)*` used by both the
prerelease and the build capture groups. -/
def matchIdentSeq (s : List Char) : Option (List Char × List Char) :=
  match matchIdentRun s with
  | none => none
  | some (run, rest) =>
    let t := identSeqLoop rest.length rest
    some (run ++ t.1, t.2)

/-- The optional prerelease part `(?:-(group))?`.  When the next character is
`'-'` the inner group must match: skipping the option instead leaves the `'-'`
in place, and neither the build part (which needs a backslash) nor `$` can
then succeed, so a failure of the inner group is a failure of the whole
match. -/
def matchOptPre : List Char → Option (Option (List Char) × List Char)
  | '-' :: rest =>
      match matchIdentSeq rest with
      | some (txt, rest2) => some (some txt, rest2)
      | none => none
  | s => some (none, s)

/-- The optional build part `(?:\\+(group))?` where `\\+` is one-or-more
literal backslashes.  The greedy run of backslashes is forced (a shorter run
leaves a backslash where an identifier character is required), and when a
backslash is present the option must be taken (skipping leaves the backslash
for `$`, which fails). -/
def matchOptBuild : List Char → Option (Option (List Char) × List Char)
  | '\\' :: rest =>
      match matchIdentSeq (rest.dropWhile (· = '\\')) with
      | some (txt, rest2) => some (some txt, rest2)
      | none => none
  | s => some (none, s)

/-- Model of `$` in a Python pattern (without `re.MULTILINE`): end of input, or a
single trailing `'\n'`. -/
def atDollar : List Char → Bool
  | [] => true
  | ['\n'] => true
  | _ => false

/-- The five captured groups of `_SEMVER_RE`. -/
structure ReGroups where
  majS : List Char
  minS : List Char
  patS : List Char
  preS : Option (List Char)
  buildS : Option (List Char)
deriving DecidableEq

/-- Runs `_SEMVER_RE.match` on the compiled (doubled-backslash) pattern: the full
anchored match, returning the captured groups. -/
def semverReMatch (s : List Char) : Option ReGroups :=
  match matchNumGroup s with
  | none => none
  | some (g1, r1) =>
  match matchSep r1 with
  | none => none
  | some (_, r2) =>
  match matchNumGroup r2 with
  | none => none
  | some (g2, r3) =>
  match matchSep r3 with
  | none => none
  | some (_, r4) =>
  match matchNumGroup r4 with
  | none => none
  | some (g3, r5) =>
  match matchOptPre r5 with
  | none => none
  | some (pre, r6) =>
  match matchOptBuild r6 with
  | none => none
  | some (bld, r7) =>
    if atDollar r7 then some ⟨g1, g2, g3, pre, bld⟩ else none

/-- Python `str.split(".")` on a single-character separator. -/
def pySplitDot : List Char → List Char → List (List Char)
  | acc, [] => [acc.reverse]
  | acc, '.' :: rest => acc.reverse :: pySplitDot [] rest
  | acc, c :: rest => pySplitDot (c :: acc) rest

/-- The two kinds of `ValueError` the engine can raise.  `invalidVersion`
models `ValueError("version must be a valid SemVer 2.0.0 string")` — note the
message is a fixed literal carrying no data.  `intLiteral` models the
`ValueError` raised by `int()` on a non-numeric captured group (Python's
message embeds the offending literal, so the constructor carries it). -/
inductive PyErr where
  | invalidVersion : PyErr
  | intLiteral : String → PyErr
deriving DecidableEq

/-- The structured result of `_parse_semver`:
`tuple[int, int, int, Optional[list[str]], Optional[str]]`. -/
structure PyVersion where
  major : Nat
  minor : Nat
  patch : Nat
  prerelease : Option (List String)
  build : Option String
deriving DecidableEq

/-- Python `int()` restricted to the strings that can reach it here (captured
groups over digits, `'\'` and `'d'`): succeeds exactly on nonempty all-ASCII-
digit strings.  (Python `int` also accepts signs, surrounding whitespace,
underscores between digits and non-ASCII decimal digits; none of those can
occur in a captured numeric group of this pattern.) -/
def pyIntNat (s : List Char) : Option Nat :=
  if s.isEmpty || !s.all isAsciiDigitChar then none
  else some (s.foldl (fun n c => 10 * n + (c.toNat - '0'.toNat)) 0)

/-- The Normalizer: strip exactly one leading lowercase `'v'` when
`allow_v_prefix` is set (`candidate.startswith("v")` then `candidate[1:]`). -/
def vStrip (allowV : Bool) (s : String) : String :=
  match s.data with
  | c :: rest => if allowV && (c = 'v') then String.mk rest else s
  | [] => s

/-- Embedding of `_parse_semver(value, allow_v_prefix)`: normalize, run the compiled
pattern, then convert the three numeric groups with `int()` (left to right)
and split the prerelease group on `"."` (Python's
`prerelease_s.split(".") if prerelease_s else None`). -/
def parse_semver (value : String) (allowV : Bool) : Except PyErr PyVersion :=
  match semverReMatch (vStrip allowV value).data with
  | none => .error .invalidVersion
  | some g =>
  match pyIntNat g.majS with
  | none => .error (.intLiteral (String.mk g.majS))
  | some vMaj =>
  match pyIntNat g.minS with
  | none => .error (.intLiteral (String.mk g.minS))
  | some vMin =>
  match pyIntNat g.patS with
  | none => .error (.intLiteral (String.mk g.patS))
  | some vPat =>
    let pre : Option (List String) :=
      match g.preS with
      | none => none
      | some [] => none
      | some (c :: cs) => some ((pySplitDot [] (c :: cs)).map String.mk)
    .ok ⟨vMaj, vMin, vPat, pre, g.buildS.map String.mk⟩

/-- Decimal digits of a natural number (fuel-based so that it reduces in the
kernel), as produced by Python `str(int)` / an f-string for a nonnegative
value. -/
def natDigits : Nat → Nat → List Char
  | 0, _ => []
  | fuel + 1, n =>
    if n < 10 then [Char.ofNat ('0'.toNat + n)]
    else natDigits fuel (n / 10) ++ [Char.ofNat ('0'.toNat + n % 10)]

/-- Python `str` of a nonnegative `int`. -/
def natToStr (n : Nat) : String :=
  String.mk (natDigits (n + 1) n)

/-- Python `".".join(identifiers)`. -/
def joinDot : List String → String
  | [] => ""
  | [x] => x
  | x :: y :: rest => x ++ "." ++ joinDot (y :: rest)

/-- Embedding of `_format_semver`: `f"{major}.{minor}.{patch}"`, then `-` + dot-joined
prerelease when the list is truthy (non-`None` and nonempty), then `+` +
build when truthy (non-`None` and nonempty). -/
def format_semver (major minor patch : Nat)
    (prerelease : Option (List String)) (build : Option String) : String :=
  let base := natToStr major ++ "." ++ natToStr minor ++ "." ++ natToStr patch
  let base :=
    match prerelease with
    | some (x :: xs) => base ++ "-" ++ joinDot (x :: xs)
    | _ => base
  match build with
  | some b => if b.isEmpty then base else base ++ "+" ++ b
  | none => base

/-- Python `str.isdigit` character classification, restricted to
representative decimal-digit ranges: the ASCII digits plus the Arabic-Indic
(U+0660–U+0669), Extended Arabic-Indic (U+06F0–U+06F9) and Devanagari
(U+0966–U+096F) decimal digits.  The full Unicode table behind `str.isdigit`
is elided; every character in this table is classified exactly as Python
classifies it, and every non-ASCII member has a code point above 127. -/
def pyIsDigitChar (c : Char) : Bool :=
  isAsciiDigitChar c
  || (0x660 ≤ c.toNat && c.toNat ≤ 0x669)
  || (0x6F0 ≤ c.toNat && c.toNat ≤ 0x6F9)
  || (0x966 ≤ c.toNat && c.toNat ≤ 0x96F)

/-- Python `str.isdigit`: nonempty and every character a digit. -/
def pyIsDigit (s : String) : Bool :=
  !s.data.isEmpty && s.data.all pyIsDigitChar

/-- Decimal value of one digit character of the table above. -/
def pyDigitVal (c : Char) : Nat :=
  if isAsciiDigitChar c then c.toNat - '0'.toNat
  else if 0x660 ≤ c.toNat && c.toNat ≤ 0x669 then c.toNat - 0x660
  else if 0x6F0 ≤ c.toNat && c.toNat ≤ 0x6F9 then c.toNat - 0x6F0
  else if 0x966 ≤ c.toNat && c.toNat ≤ 0x96F then c.toNat - 0x966
  else 0

/-- Python `int()` on a string for which `str.isdigit` holds (decimal value of
the digit sequence). -/
def pyIntDigits (s : String) : Nat :=
  s.data.foldl (fun n c => 10 * n + pyDigitVal c) 0

/-- Lexicographic (code-point) strict order on character lists: Python's `<`
on `str`. -/
def lexLt : List Char → List Char → Bool
  | [], [] => false
  | [], _ :: _ => true
  | _ :: _, [] => false
  | a :: as, b :: bs => if a < b then true else if a = b then lexLt as bs else false

/-- Embedding of `_cmp_ident(a, b)`: numeric identifiers (per `str.isdigit`) compare as
integers, a numeric identifier is lower than a non-numeric one, and two
non-numeric identifiers compare by Python string order. -/
def cmp_ident (a b : String) : Int :=
  let aNum := pyIsDigit a
  let bNum := pyIsDigit b
  if aNum && bNum then
    let ai := pyIntDigits a
    let bi := pyIntDigits b
    if ai < bi then -1 else if bi < ai then 1 else 0
  else if aNum && !bNum then -1
  else if !aNum && bNum then 1
  else if lexLt a.data b.data then -1 else if lexLt b.data a.data then 1 else 0

/-- Python `<` on triples of `int` (lexicographic tuple comparison). -/
def tripleLt : Nat × Nat × Nat → Nat × Nat × Nat → Bool
  | (a1, a2, a3), (b1, b2, b3) =>
    if a1 < b1 then true
    else if a1 = b1 then
      if a2 < b2 then true
      else if a2 = b2 then decide (a3 < b3)
      else false
    else false

/-- The prerelease walk of `_compare_semver`: the first position of
`zip(l_pre, r_pre)` where `_cmp_ident` is nonzero decides; otherwise the
lengths are compared. -/
def cmpPre (lp rp : List String) : Int :=
  match (lp.zip rp).findSome?
      (fun ab => let c := cmp_ident ab.1 ab.2; if c = 0 then none else some c) with
  | some c => c
  | none =>
    if lp.length = rp.length then 0
    else if lp.length < rp.length then -1 else 1

/-- The comparison `_compare_semver` performs after both operands parsed
(lines 163–182 of the source): release-tuple order first, then the
prerelease rules.  Build metadata is bound to throwaway names (`_l_build`,
`_r_build`) and never consulted. -/
def compareParsed (l r : PyVersion) : Int :=
  if (l.major, l.minor, l.patch) ≠ (r.major, r.minor, r.patch) then
    if tripleLt (l.major, l.minor, l.patch) (r.major, r.minor, r.patch) then -1 else 1
  else
    match l.prerelease, r.prerelease with
    | none, none => 0
    | none, some _ => 1
    | some _, none => -1
    | some lp, some rp => cmpPre lp rp

/-- Embedding of `_compare_semver(left, right, allow_v_prefix)`: parse both operands
(left first) and compare. -/
def compare_semver (left right : String) (allowV : Bool) : Except PyErr Int :=
  match parse_semver left allowV with
  | .error e => .error e
  | .ok l =>
  match parse_semver right allowV with
  | .error e => .error e
  | .ok r => .ok (compareParsed l r)

/-- The closed tag set `BumpPart`. -/
inductive BumpPart where
  | major : BumpPart
  | minor : BumpPart
  | patch : BumpPart
deriving DecidableEq

/-- The closed tag set `CompareOp`. -/
inductive CompareOp where
  | lt : CompareOp
  | lte : CompareOp
  | eq : CompareOp
  | gte : CompareOp
  | gt : CompareOp
deriving DecidableEq

/-- The `op_to_bool` dictionary of `compare_versions`: each operator as a
boolean of the tri-state comparison value. -/
def opToBool (op : CompareOp) (c : Int) : Bool :=
  match op with
  | .lt => decide (c < 0)
  | .lte => decide (c ≤ 0)
  | .eq => decide (c = 0)
  | .gte => decide (c ≥ 0)
  | .gt => decide (c > 0)

/-- The result dictionary of the `compare_versions` tool. -/
structure CompareResult where
  left : String
  right : String
  op : CompareOp
  result : Bool
deriving DecidableEq

/-- The `compare_versions` tool: compare, then derive the requested boolean.
A `ValueError` from either parse aborts the call. -/
def compare_versions (left right : String) (op : CompareOp) (allowV : Bool) :
    Except PyErr CompareResult :=
  match compare_semver left right allowV with
  | .error e => .error e
  | .ok c => .ok ⟨left, right, op, opToBool op c⟩

/-- The result dictionary of the `bump_version` tool. -/
structure BumpResult where
  old : String
  new : String
  dryRun : Bool
deriving DecidableEq

/-- The `bump_version` tool: parse (the pydantic field validator runs the same
regex check on the same normalized candidate beforehand, so a single parse
models both), bump the requested part, clear prerelease and build unless
`keep_prerelease`, format, and echo the original string and the `dry_run`
flag. -/
def bump_version (version : String) (part : BumpPart)
    (dryRun allowV keepPre : Bool) : Except PyErr BumpResult :=
  match parse_semver version allowV with
  | .error e => .error e
  | .ok v =>
    let bumped : Nat × Nat × Nat :=
      match part with
      | .major => (v.major + 1, 0, 0)
      | .minor => (v.major, v.minor + 1, 0)
      | .patch => (v.major, v.minor, v.patch + 1)
    let pre := if keepPre then v.prerelease else none
    let bld := if keepPre then v.build else none
    .ok ⟨version, format_semver bumped.1 bumped.2.1 bumped.2.2 pre bld, dryRun⟩

/-!
## Specification-side definitions

These follow the spec's words (for the refinement-style claims); they are
deliberately independent of the compiled-pattern matcher above.
-/

/-- A numeric part per the spec: `0` or a digit-string with no leading zero. -/
def specNumPart : List Char → Bool
  | [] => false
  | ['0'] => true
  | c :: cs => ('1' ≤ c && c ≤ '9') && cs.all isAsciiDigitChar

/-- Read a maximal digit run as a numeric part.  (In the anchored grammar a
numeric part is always followed by `.`, `-`, `+` or the end, never by a
digit, so the maximal run is the only candidate.) -/
def specReadNum (s : List Char) : Option (List Char) :=
  if specNumPart (s.takeWhile isAsciiDigitChar) then some (s.dropWhile isAsciiDigitChar)
  else none

/-- One or more dot-separated identifiers, each `[0-9A-Za-z-]+` (the
prerelease/build body of the spec grammar).  Fuel-based; an identifier run is
maximal (the class contains neither `.` nor `+`). -/
def specIdents : Nat → List Char → Option (List Char)
  | 0, _ => none
  | fuel + 1, s =>
    match matchIdentRun s with
    | none => none
    | some (_, rest) =>
      match rest with
      | '.' :: rest2 => specIdents fuel rest2
      | _ => some rest

/-- The build tail of the spec grammar: identifiers, then the end of the
string. -/
def specBuildTail (r : List Char) : Bool :=
  match specIdents (r.length + 1) r with
  | some [] => true
  | _ => false

/-- What may follow `<major>.<minor>.<patch>` in the spec grammar: nothing, a
`-`-prefixed prerelease optionally followed by a `+`-prefixed build, or a
`+`-prefixed build alone. -/
def specTail (r : List Char) : Bool :=
  match r with
  | [] => true
  | '-' :: r2 =>
      match specIdents (r2.length + 1) r2 with
      | none => false
      | some r3 =>
        match r3 with
        | [] => true
        | '+' :: r4 => specBuildTail r4
        | _ => false
  | '+' :: r2 => specBuildTail r2
  | _ => false

/-- The SemVer 2.0.0 grammar of the spec, full-string anchored:
`<major>.<minor>.<patch>[-<prerelease>][+<build>]`. -/
def specSemverAccepts (s : String) : Bool :=
  match specReadNum s.data with
  | none => false
  | some r1 =>
    match r1 with
    | '.' :: r2 =>
      match specReadNum r2 with
      | none => false
      | some r3 =>
        match r3 with
        | '.' :: r4 =>
          match specReadNum r4 with
          | none => false
          | some r5 => specTail r5
        | _ => false
    | _ => false

/-- The spec's numeric-identifier predicate: nonempty and all ASCII digits. -/
def specNumericIdent (s : String) : Bool :=
  !s.data.isEmpty && s.data.all isAsciiDigitChar

/-- Decimal value of an ASCII digit string (the integer a purely-numeric
identifier denotes, per the spec). -/
def specDecVal (s : String) : Nat :=
  s.data.foldl (fun n c => 10 * n + (c.toNat - '0'.toNat)) 0

/-- Three-way code-point comparison of character lists, per the spec's
"compare as strings using code-point ordering" (`Char`'s order is the order
of Unicode scalar values). -/
def specLexCmp : List Char → List Char → Int
  | [], [] => 0
  | [], _ :: _ => -1
  | _ :: _, [] => 1
  | a :: as, b :: bs =>
    if a < b then -1
    else if b < a then 1
    else specLexCmp as bs

/-- One identifier position of the spec's prerelease rules: two
purely-numeric identifiers compare as integers, a purely-numeric identifier
is lower than a non-numeric one, and two non-numeric identifiers compare by
code-point string order. -/
def specCmpIdent (a b : String) : Int :=
  if specNumericIdent a then
    if specNumericIdent b then
      if specDecVal a < specDecVal b then -1
      else if specDecVal b < specDecVal a then 1
      else 0
    else -1
  else
    if specNumericIdent b then 1
    else specLexCmp a.data b.data

/-- The spec's prerelease walk: pairwise in sequence order, the first unequal
position decides; a strict prefix is lower; equal sequences are equal. -/
def specCmpPre : List String → List String → Int
  | [], [] => 0
  | [], _ :: _ => -1
  | _ :: _, [] => 1
  | a :: as, b :: bs =>
    let c := specCmpIdent a b
    if c = 0 then specCmpPre as bs else c

/-!
## Helper definitions and lemmas
-/

/-- Direct recursion equivalent of the zip-walk `cmpPre` (proved equal in
`cmpPre_eq_rec`); convenient for induction. -/
def cmpPreRec : List String → List String → Int
  | [], [] => 0
  | [], _ :: _ => -1
  | _ :: _, [] => 1
  | a :: as, b :: bs =>
    let c := cmp_ident a b
    if c = 0 then cmpPreRec as bs else c

/-- ASCII character: code point at most 127. -/
def charIsAscii (c : Char) : Bool := c.toNat ≤ 127

lemma lexLt_irrefl : ∀ l : List Char, lexLt l l = false
  | [] => rfl
  | c :: cs => by simp [lexLt, lexLt_irrefl cs]

lemma lexLt_asymm : ∀ l m : List Char, lexLt l m = true → lexLt m l = false
  | [], [] => by simp [lexLt]
  | [], _ :: _ => by simp [lexLt]
  | _ :: _, [] => by simp [lexLt]
  | a :: as, b :: bs => by
    simp only [lexLt]
    intro h
    rcases lt_trichotomy a b with hc | hc | hc
    · rw [if_neg (asymm hc), if_neg (Ne.symm (ne_of_lt hc))]
    · subst hc
      rw [if_neg (lt_irrefl a), if_pos rfl] at h
      rw [if_neg (lt_irrefl a), if_pos rfl]
      exact lexLt_asymm as bs h
    · rw [if_neg (asymm hc), if_neg (ne_of_gt hc)] at h
      exact absurd h (by simp)

lemma tripleLt_true_iff (a1 a2 a3 b1 b2 b3 : Nat) :
    tripleLt (a1, a2, a3) (b1, b2, b3) = true ↔
      (a1 < b1 ∨ (a1 = b1 ∧ (a2 < b2 ∨ (a2 = b2 ∧ a3 < b3)))) := by
  simp only [tripleLt]
  split_ifs <;> simp_all

lemma tripleLt_flip {t u : Nat × Nat × Nat} (h : t ≠ u) :
    tripleLt u t = !tripleLt t u := by
  obtain ⟨a1, a2, a3⟩ := t
  obtain ⟨b1, b2, b3⟩ := u
  have h' : ¬(a1 = b1 ∧ a2 = b2 ∧ a3 = b3) := by
    intro he
    exact h (by simp [he.1, he.2.1, he.2.2])
  cases hab : tripleLt (a1, a2, a3) (b1, b2, b3) <;>
    cases hba : tripleLt (b1, b2, b3) (a1, a2, a3)
  · exfalso
    have hA : ¬(a1 < b1 ∨ (a1 = b1 ∧ (a2 < b2 ∨ (a2 = b2 ∧ a3 < b3)))) := by
      rw [← tripleLt_true_iff]
      simp [hab]
    have hB : ¬(b1 < a1 ∨ (b1 = a1 ∧ (b2 < a2 ∨ (b2 = a2 ∧ b3 < a3)))) := by
      rw [← tripleLt_true_iff]
      simp [hba]
    omega
  · rfl
  · rfl
  · exfalso
    have hA := (tripleLt_true_iff a1 a2 a3 b1 b2 b3).mp hab
    have hB := (tripleLt_true_iff b1 b2 b3 a1 a2 a3).mp hba
    omega

lemma tripleLt_iff_lex (t u : Nat × Nat × Nat) :
    tripleLt t u = true ↔ Prod.Lex (· < ·) (Prod.Lex (· < ·) (· < ·)) t u := by
  obtain ⟨a1, a2, a3⟩ := t
  obtain ⟨b1, b2, b3⟩ := u
  rw [tripleLt_true_iff, Prod.lex_def, Prod.lex_def]

lemma cmp_ident_self (a : String) : cmp_ident a a = 0 := by
  unfold cmp_ident
  by_cases h : pyIsDigit a <;> simp [h, lexLt_irrefl]

lemma cmp_ident_antisymm (a b : String) : cmp_ident b a = -cmp_ident a b := by
  unfold cmp_ident
  by_cases ha : pyIsDigit a <;> by_cases hb : pyIsDigit b <;> simp [ha, hb]
  · rcases lt_trichotomy (pyIntDigits a) (pyIntDigits b) with h | h | h
    · simp [h, Nat.lt_asymm h]
    · simp [h]
    · simp [h, Nat.lt_asymm h]
  · cases hab : lexLt a.data b.data
    · cases hba : lexLt b.data a.data <;> simp [hab, hba]
    · simp [hab, lexLt_asymm _ _ hab]

lemma cmpPre_eq_rec : ∀ lp rp : List String, cmpPre lp rp = cmpPreRec lp rp
  | [], [] => by simp [cmpPre, cmpPreRec]
  | [], b :: bs => by simp [cmpPre, cmpPreRec]
  | a :: as, [] => by simp [cmpPre, cmpPreRec]
  | a :: as, b :: bs => by
    simp only [cmpPre, cmpPreRec, List.zip_cons_cons, List.findSome?_cons]
    by_cases h : cmp_ident a b = 0
    · simp only [h, if_pos rfl]
      have := cmpPre_eq_rec as bs
      simp only [cmpPre] at this
      simpa [List.length_cons] using this
    · simp [h]

lemma cmpPreRec_antisymm : ∀ lp rp : List String, cmpPreRec rp lp = -cmpPreRec lp rp
  | [], [] => by simp [cmpPreRec]
  | [], b :: bs => by simp [cmpPreRec]
  | a :: as, [] => by simp [cmpPreRec]
  | a :: as, b :: bs => by
    simp only [cmpPreRec]
    by_cases h : cmp_ident a b = 0
    · have h' : cmp_ident b a = 0 := by rw [cmp_ident_antisymm, h]; rfl
      simp only [h, h', if_pos rfl]
      exact cmpPreRec_antisymm as bs
    · have h' : ¬cmp_ident b a = 0 := by
        rw [cmp_ident_antisymm]
        simpa using h
      simp only [h, h', if_neg, ite_false]
      exact cmp_ident_antisymm a b

lemma compareParsed_antisymm (a b : PyVersion) : compareParsed b a = -compareParsed a b := by
  unfold compareParsed
  by_cases h : (a.major, a.minor, a.patch) = (b.major, b.minor, b.patch)
  · rw [if_neg (not_not_intro h.symm), if_neg (not_not_intro h)]
    cases ha : a.prerelease <;> cases hb : b.prerelease
    · show (0 : Int) = -0
      norm_num
    · show (-1 : Int) = -(1 : Int)
      norm_num
    · show (1 : Int) = -(-1 : Int)
      norm_num
    · show cmpPre _ _ = -cmpPre _ _
      rw [cmpPre_eq_rec, cmpPre_eq_rec]
      exact cmpPreRec_antisymm _ _
  · rw [if_pos (Ne.symm h), if_pos h, tripleLt_flip h]
    cases tripleLt (a.major, a.minor, a.patch) (b.major, b.minor, b.patch) <;> simp

lemma opToBool_cases (c : Int) :
    ((opToBool CompareOp.lt c = true ∧ opToBool CompareOp.eq c = false ∧
        opToBool CompareOp.gt c = false) ∨
     (opToBool CompareOp.lt c = false ∧ opToBool CompareOp.eq c = true ∧
        opToBool CompareOp.gt c = false) ∨
     (opToBool CompareOp.lt c = false ∧ opToBool CompareOp.eq c = false ∧
        opToBool CompareOp.gt c = true)) ∧
    opToBool CompareOp.lte c = (opToBool CompareOp.lt c || opToBool CompareOp.eq c) ∧
    opToBool CompareOp.gte c = (opToBool CompareOp.gt c || opToBool CompareOp.eq c) := by
  simp only [opToBool]
  refine ⟨?_, ?_, ?_⟩
  · rcases lt_trichotomy c 0 with h | h | h
    · exact Or.inl ⟨by simp [h], by simp; omega, by simp; omega⟩
    · exact Or.inr (Or.inl ⟨by simp; omega, by simp [h], by simp; omega⟩)
    · exact Or.inr (Or.inr ⟨by simp; omega, by simp; omega, by simp [h]⟩)
  · by_cases h1 : c < 0 <;> by_cases h2 : c = 0 <;> simp [h1, h2] <;> omega
  · by_cases h1 : 0 < c <;> by_cases h2 : c = 0 <;> simp [h1, h2] <;> omega

lemma pyIsDigitChar_of_ascii {c : Char} (h : charIsAscii c = true) :
    pyIsDigitChar c = isAsciiDigitChar c := by
  have hc : c.toNat ≤ 127 := by simpa [charIsAscii] using h
  unfold pyIsDigitChar
  have h1 : (decide (0x660 ≤ c.toNat)) = false := decide_eq_false (by omega)
  have h2 : (decide (0x6F0 ≤ c.toNat)) = false := decide_eq_false (by omega)
  have h3 : (decide (0x966 ≤ c.toNat)) = false := decide_eq_false (by omega)
  simp [h1, h2, h3]

lemma all_digit_eq_of_ascii : ∀ l : List Char, l.all charIsAscii = true →
    l.all pyIsDigitChar = l.all isAsciiDigitChar
  | [], _ => rfl
  | c :: cs, h => by
    simp only [List.all_cons, Bool.and_eq_true] at h
    simp only [List.all_cons, pyIsDigitChar_of_ascii h.1, all_digit_eq_of_ascii cs h.2]

lemma pyIsDigit_eq_spec {s : String} (h : s.data.all charIsAscii = true) :
    pyIsDigit s = specNumericIdent s := by
  unfold pyIsDigit specNumericIdent
  rw [all_digit_eq_of_ascii _ h]

lemma pyDigitVal_of_ascii_digit {c : Char} (h : isAsciiDigitChar c = true) :
    pyDigitVal c = c.toNat - '0'.toNat := by
  unfold pyDigitVal
  rw [if_pos h]

lemma foldDigits_eq : ∀ l : List Char, l.all isAsciiDigitChar = true → ∀ n : Nat,
    l.foldl (fun n c => 10 * n + pyDigitVal c) n =
      l.foldl (fun n c => 10 * n + (c.toNat - '0'.toNat)) n
  | [], _, n => rfl
  | c :: cs, h, n => by
    simp only [List.all_cons, Bool.and_eq_true] at h
    simp only [List.foldl_cons, pyDigitVal_of_ascii_digit h.1]
    exact foldDigits_eq cs h.2 _

lemma pyIntDigits_eq_spec {s : String} (h : s.data.all isAsciiDigitChar = true) :
    pyIntDigits s = specDecVal s := by
  unfold pyIntDigits specDecVal
  exact foldDigits_eq s.data h 0

lemma lexCmp_eq_spec : ∀ x y : List Char,
    (if lexLt x y then (-1 : Int) else if lexLt y x then 1 else 0) = specLexCmp x y
  | [], [] => by simp [lexLt, specLexCmp]
  | [], b :: bs => by simp [lexLt, specLexCmp]
  | a :: as, [] => by simp [lexLt, specLexCmp]
  | a :: as, b :: bs => by
    simp only [lexLt, specLexCmp]
    rcases lt_trichotomy a b with h | h | h
    · simp [h, asymm h, (ne_of_lt h).symm, ne_of_lt h]
    · subst h
      simp only [lt_irrefl, if_false, if_pos rfl]
      exact lexCmp_eq_spec as bs
    · simp [h, asymm h, (ne_of_lt h).symm, ne_of_gt h]

/-!
## Claim theorems
-/

/-- C1 (code bug).  The claim says parsing succeeds exactly on strings of the
SemVer 2.0.0 grammar, so that `"1.2.3"` and `"10.0.0-alpha.1+build"` parse.
The doubled-backslash pattern actually compiled rejects every such string and
instead accepts backslash-laden strings such as `"0\.0\.0"`, which the spec
grammar rejects.  (The spec-side grammar also rejects the claim's listed
deviations.) -/
theorem c1_parse_agrees_with_grammar_fails :
    (specSemverAccepts "1.2.3" = true ∧
      parse_semver "1.2.3" true = Except.error PyErr.invalidVersion) ∧
    (specSemverAccepts "10.0.0-alpha.1+build" = true ∧
      parse_semver "10.0.0-alpha.1+build" true = Except.error PyErr.invalidVersion) ∧
    (specSemverAccepts "1.2" = false ∧ specSemverAccepts "1.02.3" = false ∧
      specSemverAccepts "abc" = false ∧ specSemverAccepts "1.2.3-" = false ∧
      specSemverAccepts "1.2.3+" = false) ∧
    (parse_semver "0\\.0\\.0" true = Except.ok ⟨0, 0, 0, none, none⟩ ∧
      specSemverAccepts "0\\.0\\.0" = false) :=
  ⟨⟨by decide, rfl⟩, ⟨by decide, rfl⟩, ⟨by decide, by decide, by decide, by decide, by decide⟩,
    ⟨rfl, by decide⟩⟩

/-- C5 (code bug).  `bump("1.2.5", patch)` must return `"1.2.6"` (the repo's
own test `test_bump_patch` asserts this), but the engine rejects `"1.2.5"`
outright; likewise for the prerelease example.  On an input its pattern does
accept, the bump rules behave as claimed and the result is independent of
`dry_run`, which is only echoed. -/
theorem c5_bump_rejects_its_own_test_vector :
    bump_version "1.2.5" BumpPart.patch true true false =
      Except.error PyErr.invalidVersion ∧
    bump_version "1.2.3-alpha.1+build.5" BumpPart.patch true true false =
      Except.error PyErr.invalidVersion ∧
    (∀ dr : Bool, bump_version "0\\.0\\.0" BumpPart.patch dr true false =
      Except.ok ⟨"0\\.0\\.0", "0.0.1", dr⟩) ∧
    (∀ dr : Bool, bump_version "0\\.0\\.0-a\\b" BumpPart.patch dr true true =
      Except.ok ⟨"0\\.0\\.0-a\\b", "0.0.1-a+b", dr⟩) ∧
    (∀ dr : Bool, bump_version "0\\.0\\.0-a\\b" BumpPart.patch dr true false =
      Except.ok ⟨"0\\.0\\.0-a\\b", "0.0.1", dr⟩) :=
  ⟨rfl, rfl, fun dr => by cases dr <;> rfl, fun dr => by cases dr <;> rfl,
    fun dr => by cases dr <;> rfl⟩

/-- C6 (code bug).  The claim says formatting a parsed version returns the
input verbatim (minus at most one leading `v`).  The string `"0\.0\.0"` is
accepted by the compiled pattern and parses to `(0,0,0)`, but formats to
`"0.0.0"`, which differs from the input, so the round trip fails on the code. -/
theorem c6_roundtrip_fails_on_accepted_input :
    parse_semver "0\\.0\\.0" true = Except.ok ⟨0, 0, 0, none, none⟩ ∧
    format_semver 0 0 0 none none = "0.0.0" ∧
    "0.0.0" ≠ "0\\.0\\.0" ∧
    vStrip true "0\\.0\\.0" = "0\\.0\\.0" :=
  ⟨rfl, rfl, by decide, rfl⟩

/-- C7 (code bug, build-metadata invariance).  The comparison performed on
parsed versions never consults the build component (the universally
quantified part), but the claim's concrete consequence
`compare("1.0.0+build.1", "1.0.0+build.2", eq) = true` fails on the code: the
compiled pattern rejects both operands and the repo's own test
`test_compare_build_metadata_ignored_for_precedence` errors instead of
returning `true`. -/
theorem c7_build_never_consulted_but_example_errors :
    compare_versions "1.0.0+build.1" "1.0.0+build.2" CompareOp.eq true =
      Except.error PyErr.invalidVersion ∧
    (∀ (l r : PyVersion) (b1 b2 b3 b4 : Option String),
      compareParsed { l with build := b1 } { r with build := b2 } =
        compareParsed { l with build := b3 } { r with build := b4 }) :=
  ⟨rfl, fun l r b1 b2 b3 b4 => by cases l; cases r; rfl⟩

/-- C2 (confirmed).  On parsed versions: when the release tuples differ the
comparison is exactly the lexicographic numeric order of the tuples; when they
are equal, no prerelease on either side means equality, and a prerelease on
exactly one side makes the side without it greater. -/
theorem c2_release_tuple_order (a b : PyVersion) :
    ((a.major, a.minor, a.patch) ≠ (b.major, b.minor, b.patch) →
      (compareParsed a b = -1 ↔
        Prod.Lex (· < ·) (Prod.Lex (· < ·) (· < ·))
          (a.major, a.minor, a.patch) (b.major, b.minor, b.patch)) ∧
      (compareParsed a b = 1 ↔
        Prod.Lex (· < ·) (Prod.Lex (· < ·) (· < ·))
          (b.major, b.minor, b.patch) (a.major, a.minor, a.patch))) ∧
    ((a.major, a.minor, a.patch) = (b.major, b.minor, b.patch) →
      (a.prerelease = none → b.prerelease = none → compareParsed a b = 0) ∧
      (a.prerelease = none → ∀ rp, b.prerelease = some rp → compareParsed a b = 1) ∧
      (∀ lp, a.prerelease = some lp → b.prerelease = none → compareParsed a b = -1)) := by
  constructor
  · intro h
    unfold compareParsed
    rw [if_pos h]
    have hflip := tripleLt_flip h
    cases htl : tripleLt (a.major, a.minor, a.patch) (b.major, b.minor, b.patch)
    · rw [htl] at hflip
      simp only [htl, Bool.false_eq_true, if_false]
      constructor
      · constructor
        · intro hc
          exact absurd hc (by norm_num)
        · intro hlex
          rw [← tripleLt_iff_lex] at hlex
          rw [htl] at hlex
          cases hlex
      · simp only [Bool.not_false] at hflip
        rw [← tripleLt_iff_lex, hflip]
        simp
    · rw [htl] at hflip
      simp only [htl, if_true]
      constructor
      · rw [← tripleLt_iff_lex, htl]
        simp
      · constructor
        · intro hc
          exact absurd hc (by norm_num)
        · intro hlex
          rw [← tripleLt_iff_lex, hflip] at hlex
          simp at hlex
  · intro h
    unfold compareParsed
    rw [if_neg (not_not_intro h)]
    refine ⟨?_, ?_, ?_⟩
    · intro ha hb
      rw [ha, hb]
    · intro ha rp hb
      rw [ha, hb]
    · intro lp ha hb
      rw [ha, hb]

/-- C2 witness: `1.2.3 < 2.0.0` holds through the tuple clause. -/
theorem c2_release_tuple_order_witness :
    compareParsed ⟨1, 2, 3, none, none⟩ ⟨2, 0, 0, none, none⟩ = -1 :=
  ((c2_release_tuple_order ⟨1, 2, 3, none, none⟩ ⟨2, 0, 0, none, none⟩).1
    (by decide)).1.mpr (Prod.Lex.left _ _ (by norm_num))

/-- C4 (confirmed).  The five operator booleans are all derived from the one
tri-state comparison value: exactly one of `lt`, `eq`, `gt` holds, `lte` and
`gte` are the corresponding disjunctions, and the comparison itself is
antisymmetric (hence reflexive-equal), which is the trichotomy of a strict
total order on parsed versions. -/
theorem c4_trichotomy_and_derived_ops (a b : PyVersion) :
    ((opToBool CompareOp.lt (compareParsed a b) = true ∧
        opToBool CompareOp.eq (compareParsed a b) = false ∧
        opToBool CompareOp.gt (compareParsed a b) = false) ∨
     (opToBool CompareOp.lt (compareParsed a b) = false ∧
        opToBool CompareOp.eq (compareParsed a b) = true ∧
        opToBool CompareOp.gt (compareParsed a b) = false) ∨
     (opToBool CompareOp.lt (compareParsed a b) = false ∧
        opToBool CompareOp.eq (compareParsed a b) = false ∧
        opToBool CompareOp.gt (compareParsed a b) = true)) ∧
    opToBool CompareOp.lte (compareParsed a b) =
      (opToBool CompareOp.lt (compareParsed a b) || opToBool CompareOp.eq (compareParsed a b)) ∧
    opToBool CompareOp.gte (compareParsed a b) =
      (opToBool CompareOp.gt (compareParsed a b) || opToBool CompareOp.eq (compareParsed a b)) ∧
    compareParsed b a = -compareParsed a b ∧
    compareParsed a a = 0 := by
  obtain ⟨h1, h2, h3⟩ := opToBool_cases (compareParsed a b)
  refine ⟨h1, h2, h3, compareParsed_antisymm a b, ?_⟩
  have := compareParsed_antisymm a a
  omega

lemma specNumericIdent_all_digits {s : String} (h : specNumericIdent s = true) :
    s.data.all isAsciiDigitChar = true := by
  unfold specNumericIdent at h
  simp only [Bool.and_eq_true] at h
  exact h.2

lemma cmp_ident_eq_spec {a b : String}
    (ha : a.data.all charIsAscii = true) (hb : b.data.all charIsAscii = true) :
    cmp_ident a b = specCmpIdent a b := by
  unfold cmp_ident specCmpIdent
  rw [pyIsDigit_eq_spec ha, pyIsDigit_eq_spec hb]
  cases hna : specNumericIdent a <;> cases hnb : specNumericIdent b <;> simp [hna, hnb]
  · exact lexCmp_eq_spec a.data b.data
  · rw [pyIntDigits_eq_spec (specNumericIdent_all_digits hna),
      pyIntDigits_eq_spec (specNumericIdent_all_digits hnb)]

lemma cmpPreRec_eq_spec : ∀ lp rp : List String,
    (∀ s ∈ lp, s.data.all charIsAscii = true) →
    (∀ s ∈ rp, s.data.all charIsAscii = true) →
    cmpPreRec lp rp = specCmpPre lp rp
  | [], [], _, _ => rfl
  | [], _ :: _, _, _ => rfl
  | _ :: _, [], _, _ => rfl
  | a :: as, b :: bs, ha, hb => by
    simp only [cmpPreRec, specCmpPre]
    rw [cmp_ident_eq_spec (ha a (by simp)) (hb b (by simp))]
    by_cases h : specCmpIdent a b = 0
    · simp only [h, if_pos rfl]
      exact cmpPreRec_eq_spec as bs (fun s hs => ha s (by simp [hs]))
        (fun s hs => hb s (by simp [hs]))
    · simp [h]

/-- C3 (confirmed).  With equal release tuples and prereleases on both sides
(over the grammar's ASCII identifiers), the comparison is exactly the spec's
pairwise walk: numeric identifiers compare as integers, numeric is lower than
non-numeric, non-numeric compare by code-point order, the first unequal
position decides, and a strict prefix is lower. -/
theorem c3_prerelease_walk (a b : PyVersion) (lp rp : List String)
    (ht : (a.major, a.minor, a.patch) = (b.major, b.minor, b.patch))
    (hla : a.prerelease = some lp) (hlb : b.prerelease = some rp)
    (hascii : ∀ s ∈ lp ++ rp, s.data.all charIsAscii = true) :
    compareParsed a b = specCmpPre lp rp := by
  unfold compareParsed
  rw [if_neg (not_not_intro ht), hla, hlb]
  show cmpPre lp rp = specCmpPre lp rp
  rw [cmpPre_eq_rec]
  exact cmpPreRec_eq_spec lp rp
    (fun s hs => hascii s (List.mem_append_left _ hs))
    (fun s hs => hascii s (List.mem_append_right _ hs))

/-- C3 witness: `1.0.0-alpha.1 < 1.0.0-alpha.beta` and
`1.0.0-alpha < 1.0.0-alpha.1`, via the spec walk. -/
theorem c3_prerelease_walk_witness :
    compareParsed ⟨1, 0, 0, some ["alpha", "1"], none⟩
        ⟨1, 0, 0, some ["alpha", "beta"], none⟩ = -1 ∧
    compareParsed ⟨1, 0, 0, some ["alpha"], none⟩
        ⟨1, 0, 0, some ["alpha", "1"], none⟩ = -1 :=
  ⟨(c3_prerelease_walk ⟨1, 0, 0, some ["alpha", "1"], none⟩
      ⟨1, 0, 0, some ["alpha", "beta"], none⟩ ["alpha", "1"] ["alpha", "beta"]
      rfl rfl rfl (by decide)).trans (by decide),
   (c3_prerelease_walk ⟨1, 0, 0, some ["alpha"], none⟩
      ⟨1, 0, 0, some ["alpha", "1"], none⟩ ["alpha"] ["alpha", "1"]
      rfl rfl rfl (by decide)).trans (by decide)⟩

/-- C9 counterexample.  The predicate the code uses (`str.isdigit`) accepts
the identifier consisting of the single ARABIC-INDIC DIGIT THREE (U+0663),
which is not an ASCII character, contradicting the claim that the predicate
is false for every identifier containing a non-ASCII character. -/
theorem c9_isdigit_accepts_non_ascii_digit :
    pyIsDigit (String.mk [Char.ofNat 0x663]) = true ∧
    (String.mk [Char.ofNat 0x663]).data.all charIsAscii = false :=
  ⟨by decide, by decide⟩

/-- C9 (amended).  Restricted to all-ASCII identifiers — which covers every
identifier the SemVer grammar admits — the code's numeric-identifier
predicate coincides with "non-empty and all ASCII digits"; on non-ASCII
identifiers it can differ (see the counterexample). -/
theorem c9_numeric_predicate_ascii_equiv (s : String)
    (h : s.data.all charIsAscii = true) :
    pyIsDigit s = specNumericIdent s :=
  pyIsDigit_eq_spec h

/-- C9 witness: concrete ASCII identifiers. -/
theorem c9_numeric_predicate_ascii_equiv_witness :
    pyIsDigit "123" = true ∧ pyIsDigit "alpha" = false :=
  ⟨(c9_numeric_predicate_ascii_equiv "123" (by decide)).trans (by decide),
   (c9_numeric_predicate_ascii_equiv "alpha" (by decide)).trans (by decide)⟩

/-- C8 counterexample.  The validation error for two different malformed
inputs is the same value — the engine raises
`ValueError("version must be a valid SemVer 2.0.0 string")` with a fixed
message — so the error cannot carry the offending raw string, contrary to the
claim. -/
theorem c8_error_carries_no_raw_string :
    bump_version "abc" BumpPart.patch true true false =
      bump_version "xyz" BumpPart.patch true true false ∧
    bump_version "abc" BumpPart.patch true true false =
      Except.error PyErr.invalidVersion :=
  ⟨rfl, rfl⟩

/-- C8 (amended).  A string that fails grammar validation aborts the whole
operation — `bump`, or `compare` through either operand — with the fixed
`invalidVersion` validation error; no partial or default result is
produced. -/
theorem c8_invalid_version_aborts (s : String) (allowV : Bool)
    (h : semverReMatch (vStrip allowV s).data = none) :
    parse_semver s allowV = Except.error PyErr.invalidVersion ∧
    (∀ part dr kp, bump_version s part dr allowV kp =
      Except.error PyErr.invalidVersion) ∧
    (∀ r op, compare_versions s r op allowV = Except.error PyErr.invalidVersion) ∧
    (∀ l op v, parse_semver l allowV = Except.ok v →
      compare_versions l s op allowV = Except.error PyErr.invalidVersion) := by
  have hp : parse_semver s allowV = Except.error PyErr.invalidVersion := by
    unfold parse_semver
    rw [h]
  refine ⟨hp, ?_, ?_, ?_⟩
  · intro part dr kp
    unfold bump_version
    rw [hp]
  · intro r op
    unfold compare_versions compare_semver
    rw [hp]
  · intro l op v hv
    unfold compare_versions compare_semver
    rw [hv, hp]

/-- C8 witness: `compare` aborts when its right operand is malformed, even
though the left operand parses. -/
theorem c8_invalid_version_aborts_witness :
    compare_versions "0\\.0\\.0" "abc" CompareOp.lt true =
      Except.error PyErr.invalidVersion :=
  (c8_invalid_version_aborts "abc" true (by decide)).2.2.2
    "0\\.0\\.0" CompareOp.lt ⟨0, 0, 0, none, none⟩ rfl

/-- C10 (confirmed).  Only a lowercase `v` prefix is recognized: a string
beginning with uppercase `V` passes through the normalizer unchanged even
with `allow_v_prefix` set, and `"V1.2.3"` is rejected as invalid by both
`bump_version` and `compare_versions`. -/
theorem c10_upper_v_not_stripped (s : String) (h : s.data.head? = some 'V') :
    vStrip true s = s ∧
    bump_version "V1.2.3" BumpPart.patch true true false =
      Except.error PyErr.invalidVersion ∧
    compare_versions "V1.2.3" "1.2.3" CompareOp.eq true =
      Except.error PyErr.invalidVersion := by
  refine ⟨?_, rfl, rfl⟩
  cases hs : s.data with
  | nil =>
    rw [hs] at h
    cases h
  | cons c cs =>
    rw [hs] at h
    have hc : c = 'V' := by
      simpa using h
    subst hc
    unfold vStrip
    rw [hs]
    simp

/-- C10 witness: the concrete string `"V1.2.3"`. -/
theorem c10_upper_v_not_stripped_witness :
    vStrip true "V1.2.3" = "V1.2.3" :=
  (c10_upper_v_not_stripped "V1.2.3" (by decide)).1
